import Mathlib

/-!
# Verification of the photo-exif-organizer specification

A shallow embedding of `src/image_organizer.py` and proofs about its
behaviour.  File names are modelled as `String`, paths relative to the
relevant root folder as `List String`, file contents (and therefore their
MD5 fingerprints, which the program treats as injective content digests)
as `Nat`, and the destination file system as an association list from
path to content whose lookup mirrors the on-disk state (a copy to an
existing path shadows — i.e. overwrites — the previous content).
`shutil.copy2` / `shutil.move` / `Path.rename` follow POSIX semantics:
they silently replace an existing destination file.
-/

namespace ImageOrganizer

/-! ## Decimal rendering of numbers (Python `str(n)` / `f-string` formatting) -/

def digitChar (d : Nat) : Char := Char.ofNat (48 + d)

def digitVal (c : Char) : Nat := c.toNat - 48

/-- Fuel-based most-significant-digit-first decimal writer; `fuel > n` suffices. -/
def toDecAux : Nat → Nat → List Char → List Char
  | 0, _, acc => acc
  | fuel + 1, n, acc =>
    if n < 10 then digitChar n :: acc
    else toDecAux fuel (n / 10) (digitChar (n % 10) :: acc)

/-- Decimal rendering of a natural number, as Python `str(n)` produces. -/
def natStr (n : Nat) : String := ⟨toDecAux (n + 1) n []⟩

/-- Python `f"{n:02d}"`: zero-padded to width 2. -/
def pad2 (n : Nat) : String := if n < 10 then "0" ++ natStr n else natStr n

def decFold (l : List Char) : Nat := l.foldl (fun a c => 10 * a + digitVal c) 0

lemma toDecAux_append (fuel n : Nat) (acc : List Char) :
    toDecAux fuel n acc = toDecAux fuel n [] ++ acc := by
  induction fuel generalizing n acc with
  | zero => simp [toDecAux]
  | succ fuel ih =>
    by_cases h : n < 10
    · simp [toDecAux, h]
    · rw [toDecAux, if_neg h, toDecAux, if_neg h, ih (n / 10), ih (n / 10) [digitChar (n % 10)]]
      simp

lemma digitVal_digitChar {d : Nat} (h : d < 10) : digitVal (digitChar d) = d := by
  interval_cases d <;> decide

lemma decFold_toDecAux (fuel n : Nat) (h : n < fuel) :
    decFold (toDecAux fuel n []) = n := by
  induction fuel generalizing n with
  | zero => omega
  | succ fuel ih =>
    by_cases h10 : n < 10
    · simp [toDecAux, h10, decFold, digitVal_digitChar h10]
    · rw [toDecAux, if_neg h10, toDecAux_append]
      have hdiv : n / 10 < fuel := by
        have := Nat.div_lt_self (by omega : 0 < n) (by omega : 1 < 10)
        omega
      have hrec := ih (n / 10) hdiv
      simp only [decFold, List.foldl_append] at *
      rw [hrec]
      simp [digitVal_digitChar (Nat.mod_lt n (by omega) : n % 10 < 10)]
      omega

lemma natStr_inj {a b : Nat} (h : natStr a = natStr b) : a = b := by
  have ha := decFold_toDecAux (a + 1) a (by omega)
  have hb := decFold_toDecAux (b + 1) b (by omega)
  have : (natStr a).data = (natStr b).data := by rw [h]
  simp only [natStr] at this
  rw [← ha, ← hb, this]

/-! ## String helpers (Python `str.lower`, `str.startswith`, `Path.stem`/`Path.suffix`) -/

/-- ASCII lower-casing of a character, as Python `str.lower` acts on ASCII. -/
def lowerChar (c : Char) : Char :=
  if 'A' ≤ c ∧ c ≤ 'Z' then Char.ofNat (c.toNat + 32) else c

def lowerStr (s : String) : String := ⟨s.data.map lowerChar⟩

/-- Python `str.startswith`. -/
def strStartsWith (s pre : String) : Bool := pre.data.isPrefixOf s.data

/-- Index of the last '.' in a character list, if any. -/
def lastDotAux : List Char → Nat → Option Nat → Option Nat
  | [], _, best => best
  | c :: rest, i, best => lastDotAux rest (i + 1) (if c = '.' then some i else best)

/-- Python `PurePath.stem` and `PurePath.suffix` of a file name: the extension
starts at the last dot, unless that dot is the first character or the name
ends with it. -/
def splitName (name : String) : String × String :=
  match lastDotAux name.data 0 none with
  | none => (name, "")
  | some i =>
    if 0 < i ∧ i + 1 < name.data.length then (⟨name.data.take i⟩, ⟨name.data.drop i⟩)
    else (name, "")

def nameStem (name : String) : String := (splitName name).1

def nameSuffix (name : String) : String := (splitName name).2

/-! ## File classifier (`is_image_file`, lines 56-64) -/

def image_extensions : List String :=
  [".jpg", ".jpeg", ".png", ".gif", ".bmp", ".tiff", ".webp", ".arw", ".raw"]

/-- The classifier `is_image_file`: reject names starting with a dot, otherwise check the
lower-cased extension against the allow-list. -/
def is_image_file (name : String) : Bool :=
  if strStartsWith name "." then false
  else image_extensions.contains (lowerStr (nameSuffix name))

/-! ## Dates and the strict EXIF timestamp parser
(`datetime.strptime(s, '%Y:%m:%d %H:%M:%S')`, used at line 38) -/

structure DateTime where
  year : Nat
  month : Nat
  day : Nat
  hour : Nat
  minute : Nat
  second : Nat
deriving DecidableEq

def isDigit (c : Char) : Bool := decide ('0' ≤ c) && decide (c ≤ '9')

/-- Parse `%Y`: exactly four digits. -/
def parse4 : List Char → Option (Nat × List Char)
  | a :: b :: c :: d :: rest =>
    if isDigit a && isDigit b && isDigit c && isDigit d then
      some (1000 * digitVal a + 100 * digitVal b + 10 * digitVal c + digitVal d, rest)
    else none
  | _ => none

/-- A one-or-two-digit numeric field as CPython `_strptime` matches it: a
two-digit reading is taken when its value lies in `[lo2, hi]`, otherwise a
single digit with value in `[lo1, 9]` is taken. `%m`: lo1=1 lo2=1 hi=12;
`%d`: 1 1 31; `%H`: 0 0 23; `%M`/`%S`: 0 0 59. -/
def parse2d (lo1 lo2 hi : Nat) : List Char → Option (Nat × List Char)
  | a :: b :: rest =>
    if isDigit a && isDigit b && decide (lo2 ≤ 10 * digitVal a + digitVal b)
        && decide (10 * digitVal a + digitVal b ≤ hi) then
      some (10 * digitVal a + digitVal b, rest)
    else if isDigit a && decide (lo1 ≤ digitVal a) then some (digitVal a, b :: rest)
    else none
  | [a] => if isDigit a && decide (lo1 ≤ digitVal a) then some (digitVal a, []) else none
  | [] => none

def expectChar (c : Char) : List Char → Option (List Char)
  | d :: rest => if d = c then some rest else none
  | [] => none

def isLeap (y : Nat) : Bool := (y % 4 = 0 && y % 100 != 0) || y % 400 = 0

def daysInMonth (y m : Nat) : Nat :=
  if m = 2 then (if isLeap y then 29 else 28)
  else if m = 4 || m = 6 || m = 9 || m = 11 then 30 else 31

/-- Strict parse of the fixed pattern `YYYY:MM:DD HH:MM:SS`; the whole string
must be consumed and the values must form a valid `datetime`. -/
def parseExifDate (s : String) : Option DateTime := do
  let (y, r1) ← parse4 s.data
  let r2 ← expectChar ':' r1
  let (mo, r3) ← parse2d 1 1 12 r2
  let r4 ← expectChar ':' r3
  let (d, r5) ← parse2d 1 1 31 r4
  let r6 ← expectChar ' ' r5
  let (h, r7) ← parse2d 0 0 23 r6
  let r8 ← expectChar ':' r7
  let (mi, r9) ← parse2d 0 0 59 r8
  let r10 ← expectChar ':' r9
  let (se, r11) ← parse2d 0 0 59 r10
  if r11 = [] ∧ 1 ≤ y ∧ d ≤ daysInMonth y mo then
    some ⟨y, mo, d, h, mi, se⟩
  else none

/-! ## Date resolution (`get_date_from_exif` lines 28-43, `get_date_from_file`
lines 46-53, composed at line 312) -/

/-- Generic association-list lookup (Python `dict` membership and indexing;
also reused for the in-run hash tracker and the modelled file system). -/
def assoc {α β : Type} [DecidableEq α] : List (α × β) → α → Option β
  | [], _ => none
  | (k, v) :: rest, a => if k = a then some v else assoc rest a

/-- The EXIF field list exactly as in the source (line 31):
`['EXIF DateTimeOriginal', 'Image DateTime', 'EXIF DateTimeDigitized']`. -/
def date_fields : List String :=
  ["EXIF DateTimeOriginal", "Image DateTime", "EXIF DateTimeDigitized"]

/-- The `for field in date_fields` loop of `get_date_from_exif`: a field that
is absent, or present but unparseable, falls through to the next one. -/
def getDateFromExifGo (exif : List (String × String)) : List String → Option DateTime
  | [] => none
  | f :: rest =>
    match assoc exif f with
    | some s =>
      match parseExifDate s with
      | some d => some d
      | none => getDateFromExifGo exif rest
    | none => getDateFromExifGo exif rest

def get_date_from_exif (exif : List (String × String)) : Option DateTime :=
  getDateFromExifGo exif date_fields

/-- Model of `get_date_from_file`: the file's modification time when the `os.path.getmtime`
call succeeds, the current wall-clock time when it raises. -/
def get_date_from_file (mtime : Option DateTime) (now : DateTime) : DateTime :=
  match mtime with
  | some t => t
  | none => now

/-- Line 312: `get_date_from_exif(exif_data) or get_date_from_file(file_path)`
(a Python `datetime` is always truthy). -/
def resolveDate (exif : List (String × String)) (mtime : Option DateTime)
    (now : DateTime) : DateTime :=
  match get_date_from_exif exif with
  | some d => d
  | none => get_date_from_file mtime now

/-- One attempted field lookup-and-parse, used to state order-of-fields facts. -/
def tryDateField (exif : List (String × String)) (field : String) : Option DateTime :=
  match assoc exif field with
  | some s => parseExifDate s
  | none => none

/-! ## File-system model and suffix collision resolution

A file system is an association list from relative path (list of
components) to content; `assoc` lookup gives the visible content, so a
cons at an existing path models an overwriting copy. -/

abbrev RelPath := List String

abbrev FS := List (RelPath × Nat)

def fsLookup (fs : FS) (p : RelPath) : Option Nat := assoc fs p

/-- Deleting the file at a path (POSIX `rename`/`move` removes the source). -/
def fsRemove (fs : FS) (p : RelPath) : FS := fs.filter (fun e => decide (e.1 ≠ p))

/-- The suffixed name `f"{base_name}_{counter}{extension}"` of lines 190, 336, 374. -/
def suffixName (stem ext : String) (k : Nat) : String :=
  stem ++ "_" ++ natStr k ++ ext

/-- The `while dest_path.exists()` suffix loop: try `stem_k ext` for
`k = start, start+1, ...` until a free name is found.  The loop in the
source is unbounded; since the file system is finite it always terminates,
which the fuel of `fs.length + 1` makes explicit (see `findSuffix_fresh`). -/
def findSuffix (fs : FS) (dir : RelPath) (stem ext : String) : Nat → Nat → String
  | 0, k => suffixName stem ext k
  | fuel + 1, k =>
    let n := suffixName stem ext k
    if (fsLookup fs (dir ++ [n])).isSome then findSuffix fs dir stem ext fuel (k + 1)
    else n

/-- The full collision-resolution idiom (lines 184-192, 329-338): keep the
name if the path is free, otherwise run the suffix loop from counter 1. -/
def resolveCollision (fs : FS) (dir : RelPath) (name : String) : String :=
  if (fsLookup fs (dir ++ [name])).isSome then
    findSuffix fs dir (nameStem name) (nameSuffix name) (fs.length + 1) 1
  else name

/-! ### Freshness of the resolved name -/

lemma fsLookup_isSome_mem {fs : FS} {p : RelPath}
    (h : (fsLookup fs p).isSome = true) : p ∈ fs.map Prod.fst := by
  induction fs with
  | nil => simp [fsLookup, assoc] at h
  | cons e rest ih =>
    by_cases he : e.1 = p
    · simp [he]
    · simp only [fsLookup, assoc, if_neg he] at h
      simpa using Or.inr (ih h)

lemma string_append_data (s t : String) : (s ++ t).data = s.data ++ t.data := rfl

lemma suffixName_inj {stem ext : String} {j k : Nat}
    (h : suffixName stem ext j = suffixName stem ext k) : j = k := by
  apply natStr_inj
  have hd : (suffixName stem ext j).data = (suffixName stem ext k).data := by rw [h]
  simp only [suffixName, string_append_data, List.append_assoc] at hd
  have h1 := List.append_cancel_left hd
  have h2 := List.append_cancel_left h1
  have h3 := List.append_cancel_right h2
  exact congrArg String.mk h3

lemma findSuffix_all_exist {fs : FS} {dir : RelPath} {stem ext : String} :
    ∀ fuel k, (fsLookup fs (dir ++ [findSuffix fs dir stem ext fuel k])).isSome = true →
    ∀ j, k ≤ j → j < k + fuel →
      (fsLookup fs (dir ++ [suffixName stem ext j])).isSome = true := by
  intro fuel
  induction fuel with
  | zero => intro k _ j h1 h2; omega
  | succ fuel ih =>
    intro k hres j h1 h2
    by_cases hk : (fsLookup fs (dir ++ [suffixName stem ext k])).isSome = true
    · rcases Nat.eq_or_lt_of_le h1 with rfl | hlt
      · exact hk
      · rw [findSuffix] at hres
        simp only [hk, if_pos] at hres
        exact ih (k + 1) hres j (by omega) (by omega)
    · simp only [Bool.not_eq_true] at hk
      rw [findSuffix] at hres
      simp only [hk, Bool.false_eq_true, if_false] at hres

lemma exist_range_le {fs : FS} {dir : RelPath} {stem ext : String} {k m : Nat}
    (h : ∀ j, k ≤ j → j < k + m →
      (fsLookup fs (dir ++ [suffixName stem ext j])).isSome = true) :
    m ≤ fs.length := by
  classical
  have hcard : (Finset.Ico k (k + m)).card ≤ ((fs.map Prod.fst).toFinset).card := by
    apply Finset.card_le_card_of_injOn (fun j => dir ++ [suffixName stem ext j])
    · intro j hj
      rw [Finset.mem_Ico] at hj
      exact List.mem_toFinset.mpr (fsLookup_isSome_mem (h j hj.1 hj.2))
    · intro a _ b _ hab
      have h1 := List.append_cancel_left hab
      have h2 : suffixName stem ext a = suffixName stem ext b := by simpa using h1
      exact suffixName_inj h2
  have h1 : ((fs.map Prod.fst).toFinset).card ≤ (fs.map Prod.fst).length :=
    (fs.map Prod.fst).toFinset_card_le
  simp only [Nat.card_Ico, List.length_map] at hcard h1
  omega

lemma findSuffix_fresh (fs : FS) (dir : RelPath) (stem ext : String) :
    fsLookup fs (dir ++ [findSuffix fs dir stem ext (fs.length + 1) 1]) = none := by
  by_contra hne
  have hsome : (fsLookup fs
      (dir ++ [findSuffix fs dir stem ext (fs.length + 1) 1])).isSome = true :=
    Option.isSome_iff_ne_none.mpr hne
  have hall := @findSuffix_all_exist fs dir stem ext (fs.length + 1) 1 hsome
  have := @exist_range_le fs dir stem ext 1 (fs.length + 1) hall
  omega

lemma resolveCollision_fresh (fs : FS) (dir : RelPath) (name : String) :
    fsLookup fs (dir ++ [resolveCollision fs dir name]) = none := by
  rw [resolveCollision]
  by_cases h : (fsLookup fs (dir ++ [name])).isSome = true
  · rw [if_pos h]; exact findSuffix_fresh fs dir (nameStem name) (nameSuffix name)
  · rw [if_neg h]
    simpa using Option.not_isSome_iff_eq_none.mp (by simpa using h)

/-! ## The organize pipeline (`organize_images`, lines 263-425)

A source file as the walk of lines 295-297 yields it: the name of its
immediate parent directory (`file_path.parent.name`), its file name, its
byte content (which doubles as its MD5 fingerprint), its EXIF tag mapping
and its modification time (`none` when `os.path.getmtime` raises). -/

structure SrcFile where
  parent : String
  name : String
  content : Nat
  exif : List (String × String)
  mtime : Option DateTime
deriving DecidableEq

structure OrgConfig where
  tag : Option String
  rerun : Bool
  now : DateTime
deriving DecidableEq

structure OrgState where
  fs : FS
  tracker : List (Nat × RelPath)
  processed : Nat
  duplicates : Nat
  skipped : Nat
  alreadyExists : Nat
deriving DecidableEq

/-- Python truthiness of the `tag_prefix` argument (`if tag_prefix:` at
line 389): `None` and the empty string are both falsy. -/
def getTag : Option String → Option String
  | none => none
  | some t => if t = "" then none else some t

/-- The `destination/YYYY/MM` folder of lines 349-350, relative to the
destination root. -/
def monthDir (d : DateTime) : RelPath := [natStr d.year, pad2 d.month]

/-- The duplicate base name `f"{date.year}_{date.month:02d}_{file_path.name}"` of line 327. -/
def dupBase (d : DateTime) (name : String) : String :=
  natStr d.year ++ "_" ++ pad2 d.month ++ "_" ++ name

/-- Lines 388-408: the copy of a new-unique file after its destination name
`destName` has been resolved, with the optional tag prefixed to the file
name (no further existence check), and the hash recorded at the path that
was actually written. -/
def finishCopy (cfg : OrgConfig) (st : OrgState) (f : SrcFile)
    (mdir : RelPath) (destName : String) : OrgState :=
  match getTag cfg.tag with
  | some t =>
    let pname := t ++ "_" ++ destName
    { st with
      fs := (mdir ++ [pname], f.content) :: st.fs
      processed := st.processed + 1
      tracker := (f.content, mdir ++ [pname]) :: st.tracker }
  | none =>
    { st with
      fs := (mdir ++ [destName], f.content) :: st.fs
      processed := st.processed + 1
      tracker := (f.content, mdir ++ [destName]) :: st.tracker }

/-- The body of the per-file loop of `organize_images` (lines 296-414). -/
def processFile (cfg : OrgConfig) (st : OrgState) (f : SrcFile) : OrgState :=
  if is_image_file f.name then
    let date := resolveDate f.exif f.mtime cfg.now
    match assoc st.tracker f.content with
    | some _ =>
      let subdir : RelPath := ["duplicates", f.parent]
      let destName := resolveCollision st.fs subdir (dupBase date f.name)
      { st with
        fs := (subdir ++ [destName], f.content) :: st.fs
        duplicates := st.duplicates + 1 }
    | none =>
      let mdir := monthDir date
      match fsLookup st.fs (mdir ++ [f.name]) with
      | some existingHash =>
        if existingHash = f.content then
          { st with alreadyExists := st.alreadyExists + 1 }
        else
          finishCopy cfg st f mdir
            (findSuffix st.fs mdir (nameStem f.name) (nameSuffix f.name)
              (st.fs.length + 1) 1)
      | none => finishCopy cfg st f mdir f.name
  else { st with skipped := st.skipped + 1 }

/-- Model of `organize_images` over the walk order of the source tree, starting from
the given destination state (the per-file loop only; the resource-fork
sweep of lines 416-418 is modelled separately by `organizeReport`). -/
def organize_images (cfg : OrgConfig) (files : List SrcFile) (st : OrgState) : OrgState :=
  files.foldl (processFile cfg) st

def initState (fs : FS) : OrgState :=
  { fs := fs, tracker := [], processed := 0, duplicates := 0
    skipped := 0, alreadyExists := 0 }

/-- The month-folder destination path a file is first checked against
(line 356), relative to the destination root. -/
def destPath (cfg : OrgConfig) (f : SrcFile) : RelPath :=
  monthDir (resolveDate f.exif f.mtime cfg.now) ++ [f.name]

/-! ## Duplicate-check mode (`find_duplicates`, lines 104-208)

The scanned folder is an `FS` of paths relative to the folder root, in
walk order.  `folderName` is the name of the scanned folder itself, which
is what `path.parent.name` yields for files sitting directly in it. -/

/-- The name (last component) of a relative path. -/
def lastName (p : RelPath) : String := p.getLast?.getD ""

/-- Python `path.parent.name` relative to the scanned folder. -/
def parentName (folderName : String) (p : RelPath) : String :=
  (p.dropLast.getLast?).getD folderName

/-- The walk skip `'duplicates' in file_path.parts` of line 140. -/
def inDuplicatesArea (p : RelPath) : Bool := p.contains "duplicates"

/-- A walk entry `find_duplicates` actually processes: not under the
`duplicates` subfolder and classified as an image (lines 140-143). -/
def orgPred (e : RelPath × Nat) : Bool :=
  !(inDuplicatesArea e.1) && is_image_file (lastName e.1)

structure FdAcc where
  hashes : List (Nat × RelPath)
  dups : List (Nat × List RelPath)
  count : Nat
deriving DecidableEq

/-- Python `duplicates[file_hash].append(file_path)` on an insertion-ordered dict. -/
def dupsAppend : List (Nat × List RelPath) → Nat → RelPath → List (Nat × List RelPath)
  | [], _, _ => []
  | (k, ps) :: rest, h, p =>
    if k = h then (k, ps ++ [p]) :: rest else (k, ps) :: dupsAppend rest h p

/-- One step of the first pass of `find_duplicates` (lines 135-159). -/
def fdStep (acc : FdAcc) (e : RelPath × Nat) : FdAcc :=
  if inDuplicatesArea e.1 then acc
  else if is_image_file (lastName e.1) then
    match assoc acc.hashes e.2 with
    | some orig =>
      let dups :=
        if (assoc acc.dups e.2).isSome then dupsAppend acc.dups e.2 e.1
        else acc.dups ++ [(e.2, [orig, e.1])]
      { acc with dups := dups, count := acc.count + 1 }
    | none => { acc with hashes := acc.hashes ++ [(e.2, e.1)] }
  else acc

/-- Lines 170-197: move one duplicate occurrence into
`duplicates/<source_dir_name>/`, resolving name clashes by suffixing, and
returning the new file system together with the chosen destination. -/
def moveDup (folderName : String) (fs : FS) (h : Nat) (p : RelPath) : FS × RelPath :=
  let subdir : RelPath := ["duplicates", parentName folderName p]
  let destName := resolveCollision fs subdir (lastName p)
  ((subdir ++ [destName], h) :: fsRemove fs p, subdir ++ [destName])

/-- The inner `for path in paths[1:]` loop of the second pass for one
duplicate set. -/
def fdMoveSet (folderName : String) (move : Bool) (acc : FS × Nat)
    (entry : Nat × List RelPath) : FS × Nat :=
  (entry.2.drop 1).foldl
    (fun ac p =>
      if move then ((moveDup folderName ac.1 entry.1 p).1, ac.2 + 1) else ac)
    acc

/-- Model of `find_duplicates folder move`: returns `(duplicate_count, moved_count)`
together with the folder's final file system. -/
def find_duplicates (folderName : String) (fs : FS) (move : Bool) :
    Nat × Nat × FS :=
  let acc := fs.foldl fdStep ⟨[], [], 0⟩
  let res := acc.dups.foldl (fdMoveSet folderName move) (fs, 0)
  (acc.count, res.2, res.1)

/-! ## Rename-with-prefix mode (`add_prefix_to_files`, lines 211-260) -/

/-- One step of the rename walk: skip non-images and files already carrying
`pre_`, otherwise rename in place.  `Path.rename` follows POSIX `rename`
semantics: an existing destination file is silently replaced. -/
def renameStep (pre : String) (acc : FS × Nat) (e : RelPath × Nat) : FS × Nat :=
  if is_image_file (lastName e.1) then
    if strStartsWith (lastName e.1) (pre ++ "_") then acc
    else
      let newPath := e.1.dropLast ++ [pre ++ "_" ++ lastName e.1]
      ((newPath, e.2) :: fsRemove acc.1 e.1, acc.2 + 1)
  else acc

/-- Model of `add_prefix_to_files` over the walk snapshot of the folder; returns the
final file system and the renamed count. -/
def add_prefix_to_files (pre : String) (fs : FS) : FS × Nat :=
  fs.foldl (renameStep pre) (fs, 0)

/-! ## Resource-fork sweep (`remove_resource_fork_files`, lines 83-101) and
the end of an organize pass (lines 416-425) -/

/-- An entry of the destination tree as the recursive glob of line 95 visits
it: its file name, whether it is a regular file, and whether `unlink`
succeeds on it (`false` models an `OSError` from the file system). -/
structure SweepEntry where
  name : String
  isFile : Bool
  deletable : Bool
deriving DecidableEq

/-- The sweep loop of lines 95-99.  `path.unlink()` is not wrapped in any
`try`/`except`, so a failing deletion raises out of the loop; the model
returns `Except.error` with the offending name, and the entries after it
are never visited. -/
def removeRFFGo : List SweepEntry → Nat → Except String Nat
  | [], removed => .ok removed
  | e :: rest, removed =>
    if e.isFile && strStartsWith e.name "._" then
      if e.deletable then removeRFFGo rest (removed + 1)
      else .error e.name
    else removeRFFGo rest removed

def remove_resource_fork_files (entries : List SweepEntry) : Except String Nat :=
  removeRFFGo entries 0

/-- Lines 416-425: after the per-file loop, the sweep runs over the
destination tree and then the statistics are printed.  An exception from
the sweep propagates, so the statistics `(processed, duplicates,
already-present, skipped, removed)` are only reported when the sweep
finishes. -/
def organizeReport (st : OrgState) (destEntries : List SweepEntry) :
    Except String (Nat × Nat × Nat × Nat × Nat) := do
  let removed ← remove_resource_fork_files destEntries
  return (st.processed, st.duplicates, st.alreadyExists, st.skipped, removed)

/-! ## Basic lookup and step lemmas -/

lemma fsLookup_cons (e : RelPath × Nat) (fs : FS) (p : RelPath) :
    fsLookup (e :: fs) p = if e.1 = p then some e.2 else fsLookup fs p := rfl

lemma fsLookup_cons_fresh {fs : FS} {q : RelPath} {c : Nat} {p : RelPath}
    (hq : fsLookup fs q = none) (hp : (fsLookup fs p).isSome = true) :
    fsLookup ((q, c) :: fs) p = fsLookup fs p := by
  have hne : q ≠ p := by
    intro h
    rw [← h, hq] at hp
    simp at hp
  simp [fsLookup, assoc, hne]

lemma fsLookup_remove_ne {fs : FS} {q p : RelPath} (h : p ≠ q) :
    fsLookup (fsRemove fs q) p = fsLookup fs p := by
  induction fs with
  | nil => rfl
  | cons e rest ih =>
    by_cases he : e.1 = q
    · have hep : e.1 ≠ p := fun hh => h (hh ▸ he)
      have h1 : fsRemove (e :: rest) q = fsRemove rest q := by
        simp [fsRemove, List.filter_cons, he]
      rw [h1, ih, fsLookup_cons, if_neg hep]
    · have h1 : fsRemove (e :: rest) q = e :: fsRemove rest q := by
        simp [fsRemove, List.filter_cons, he]
      rw [h1, fsLookup_cons, fsLookup_cons, ih]

lemma fsLookup_remove_self (fs : FS) (p : RelPath) :
    fsLookup (fsRemove fs p) p = none := by
  induction fs with
  | nil => rfl
  | cons e rest ih =>
    by_cases he : e.1 = p
    · have h1 : fsRemove (e :: rest) p = fsRemove rest p := by
        simp [fsRemove, List.filter_cons, he]
      rw [h1, ih]
    · have h1 : fsRemove (e :: rest) p = e :: fsRemove rest p := by
        simp [fsRemove, List.filter_cons, he]
      rw [h1, fsLookup_cons, if_neg he, ih]

lemma assoc_of_mem_nodup {α β : Type} [DecidableEq α] {l : List (α × β)} {a : α} {b : β}
    (hmem : (a, b) ∈ l) (hnd : (l.map Prod.fst).Nodup) : assoc l a = some b := by
  induction l with
  | nil => simp at hmem
  | cons e rest ih =>
    rcases List.mem_cons.mp hmem with heq | htail
    · rw [← heq]
      simp [assoc]
    · have hne : e.1 ≠ a := by
        intro h
        have : a ∈ rest.map Prod.fst := List.mem_map.mpr ⟨(a, b), htail, rfl⟩
        rw [List.map_cons, List.nodup_cons, h] at hnd
        exact hnd.1 this
      rw [assoc, if_neg hne]
      exact ih htail (by rw [List.map_cons, List.nodup_cons] at hnd; exact hnd.2)

lemma assoc_append_left {α β : Type} [DecidableEq α] {l1 : List (α × β)} {a : α} {b : β}
    (h : assoc l1 a = some b) (l2 : List (α × β)) : assoc (l1 ++ l2) a = some b := by
  induction l1 with
  | nil => simp [assoc] at h
  | cons e rest ih =>
    by_cases he : e.1 = a
    · rw [assoc, if_pos he] at h
      simp [assoc, he, h]
    · rw [assoc, if_neg he] at h
      simpa [assoc, he] using ih h

lemma foldl_filter_eq {α β : Type} (f : β → α → β) (p : α → Bool) (l : List α)
    (h : ∀ b a, p a = false → f b a = b) :
    ∀ b, l.foldl f b = (l.filter p).foldl f b := by
  induction l with
  | nil => intro b; rfl
  | cons x rest ih =>
    intro b
    by_cases hx : p x = true
    · simp [List.filter, hx, List.foldl_cons, ih]
    · simp only [Bool.not_eq_true] at hx
      simp [List.filter, hx, List.foldl_cons, h b x hx, ih]

/-! ### Branch lemmas for `processFile` -/

lemma processFile_nonimage {cfg : OrgConfig} {st : OrgState} {f : SrcFile}
    (h : is_image_file f.name = false) :
    processFile cfg st f = { st with skipped := st.skipped + 1 } := by
  simp [processFile, h]

lemma processFile_dup {cfg : OrgConfig} {st : OrgState} {f : SrcFile} {q : RelPath}
    (himg : is_image_file f.name = true)
    (htr : assoc st.tracker f.content = some q) :
    processFile cfg st f =
      { st with
        fs := (["duplicates", f.parent] ++
            [resolveCollision st.fs ["duplicates", f.parent]
              (dupBase (resolveDate f.exif f.mtime cfg.now) f.name)],
          f.content) :: st.fs
        duplicates := st.duplicates + 1 } := by
  simp [processFile, himg, htr]

lemma processFile_skip {cfg : OrgConfig} {st : OrgState} {f : SrcFile}
    (himg : is_image_file f.name = true)
    (htr : assoc st.tracker f.content = none)
    (hfs : fsLookup st.fs (destPath cfg f) = some f.content) :
    processFile cfg st f = { st with alreadyExists := st.alreadyExists + 1 } := by
  rw [destPath] at hfs
  simp [processFile, himg, htr, hfs]

lemma processFile_new {cfg : OrgConfig} {st : OrgState} {f : SrcFile}
    (himg : is_image_file f.name = true)
    (htr : assoc st.tracker f.content = none)
    (hfs : fsLookup st.fs (destPath cfg f) = none) :
    processFile cfg st f =
      finishCopy cfg st f (monthDir (resolveDate f.exif f.mtime cfg.now)) f.name := by
  rw [destPath] at hfs
  simp [processFile, himg, htr, hfs]

lemma processFile_clash {cfg : OrgConfig} {st : OrgState} {f : SrcFile} {c : Nat}
    (himg : is_image_file f.name = true)
    (htr : assoc st.tracker f.content = none)
    (hfs : fsLookup st.fs (destPath cfg f) = some c)
    (hne : c ≠ f.content) :
    processFile cfg st f =
      finishCopy cfg st f (monthDir (resolveDate f.exif f.mtime cfg.now))
        (findSuffix st.fs (monthDir (resolveDate f.exif f.mtime cfg.now))
          (nameStem f.name) (nameSuffix f.name) (st.fs.length + 1) 1) := by
  rw [destPath] at hfs
  simp [processFile, himg, htr, hfs, hne]

lemma finishCopy_notag {cfg : OrgConfig} {st : OrgState} {f : SrcFile}
    {mdir : RelPath} {destName : String} (h : getTag cfg.tag = none) :
    finishCopy cfg st f mdir destName =
      { st with
        fs := (mdir ++ [destName], f.content) :: st.fs
        processed := st.processed + 1
        tracker := (f.content, mdir ++ [destName]) :: st.tracker } := by
  simp [finishCopy, h]

lemma finishCopy_tag {cfg : OrgConfig} {st : OrgState} {f : SrcFile}
    {mdir : RelPath} {destName : String} {t : String} (h : getTag cfg.tag = some t) :
    finishCopy cfg st f mdir destName =
      { st with
        fs := (mdir ++ [t ++ "_" ++ destName], f.content) :: st.fs
        processed := st.processed + 1
        tracker := (f.content, mdir ++ [t ++ "_" ++ destName]) :: st.tracker } := by
  simp [finishCopy, h]

/-- When the fingerprint is not yet tracked, no branch of the new-file path
touches the duplicates counter. -/
lemma processFile_newbranch_duplicates {cfg : OrgConfig} {st : OrgState} {f : SrcFile}
    (htr : assoc st.tracker f.content = none) :
    (processFile cfg st f).duplicates = st.duplicates := by
  by_cases himg : is_image_file f.name = true
  · cases hfs : fsLookup st.fs (destPath cfg f) with
    | none =>
      rw [processFile_new himg htr hfs]
      cases htag : getTag cfg.tag with
      | none => rw [finishCopy_notag htag]
      | some t => rw [finishCopy_tag htag]
    | some c =>
      by_cases hc : c = f.content
      · rw [hc] at hfs
        rw [processFile_skip himg htr hfs]
      · rw [processFile_clash himg htr hfs hc]
        cases htag : getTag cfg.tag with
        | none => rw [finishCopy_notag htag]
        | some t => rw [finishCopy_tag htag]
  · rw [processFile_nonimage (by simpa using himg)]

/-! ## Claim C9 -/

/-- C9: for every file name, the classifier returns true iff the lower-cased
extension is in the fixed allow-list and the name does not start with a dot;
a dot-prefixed name is rejected regardless of extension. -/
theorem C9_is_image_file_iff :
    ∀ name : String,
      (is_image_file name = true ↔
        strStartsWith name "." = false ∧
          lowerStr (nameSuffix name) ∈ image_extensions) ∧
      (strStartsWith name "." = true → is_image_file name = false) := by
  intro name
  constructor
  · by_cases h : strStartsWith name "." = true
    · simp [is_image_file, h]
    · simp only [Bool.not_eq_true] at h
      simp [is_image_file, h]
  · intro h
    simp [is_image_file, h]

/-! ## Claim C7 -/

/-- C7: date resolution is total — the composed resolver returns the EXIF
date when one of the fields parses, otherwise the modification time when
available, otherwise the current wall-clock time; it is defined on every
input. -/
theorem C7_resolveDate_total :
    ∀ (exif : List (String × String)) (mtime : Option DateTime) (now : DateTime),
      resolveDate exif mtime now =
        match get_date_from_exif exif, mtime with
        | some d, _ => d
        | none, some t => t
        | none, none => now := by
  intro exif mtime now
  cases h : get_date_from_exif exif with
  | some d => simp [resolveDate, h]
  | none => cases mtime with
    | some t => simp [resolveDate, h, get_date_from_file]
    | none => simp [resolveDate, h, get_date_from_file]

/-! ## Claim C4 -/

/-- C4 counterexample: with no original-capture field, a generic timestamp
of 2023 and a digitized timestamp of 2022 both present and parseable, the
resolver returns the generic 2023 value, not the digitized 2022 value that
the claimed priority order (original, digitized, generic) would pick. -/
theorem C4_counterexample :
    assoc [("Image DateTime", "2023:05:06 07:08:09"),
        ("EXIF DateTimeDigitized", "2022:01:02 03:04:05")]
        "EXIF DateTimeOriginal" = none ∧
    assoc [("Image DateTime", "2023:05:06 07:08:09"),
        ("EXIF DateTimeDigitized", "2022:01:02 03:04:05")]
        "EXIF DateTimeDigitized" = some "2022:01:02 03:04:05" ∧
    parseExifDate "2022:01:02 03:04:05" = some ⟨2022, 1, 2, 3, 4, 5⟩ ∧
    get_date_from_exif [("Image DateTime", "2023:05:06 07:08:09"),
        ("EXIF DateTimeDigitized", "2022:01:02 03:04:05")] =
      some ⟨2023, 5, 6, 7, 8, 9⟩ ∧
    (⟨2023, 5, 6, 7, 8, 9⟩ : DateTime) ≠ ⟨2022, 1, 2, 3, 4, 5⟩ := by
  refine ⟨rfl, rfl, rfl, rfl, by decide⟩

/-- C4 amended: the resolver tries the fields in the order original capture
time, then generic timestamp, then digitized time, and returns the value of
the first field that is present and parses against the fixed pattern. -/
theorem C4_field_order :
    ∀ exif : List (String × String),
      get_date_from_exif exif =
        (tryDateField exif "EXIF DateTimeOriginal").orElse (fun _ =>
          (tryDateField exif "Image DateTime").orElse (fun _ =>
            tryDateField exif "EXIF DateTimeDigitized")) := by
  intro exif
  simp only [get_date_from_exif, date_fields, getDateFromExifGo, tryDateField]
  cases h1 : assoc exif "EXIF DateTimeOriginal" with
  | some s1 =>
    cases hp1 : parseExifDate s1 with
    | some d => simp [Option.orElse, *]
    | none =>
      cases h2 : assoc exif "Image DateTime" with
      | some s2 =>
        cases hp2 : parseExifDate s2 with
        | some d => simp [Option.orElse, *]
        | none => cases h3 : assoc exif "EXIF DateTimeDigitized" with
          | some s3 => cases hp3 : parseExifDate s3 <;> simp [Option.orElse, *]
          | none => simp [Option.orElse, *]
      | none =>
        cases h3 : assoc exif "EXIF DateTimeDigitized" with
        | some s3 => cases hp3 : parseExifDate s3 <;> simp [Option.orElse, *]
        | none => simp [Option.orElse, *]
  | none =>
    cases h2 : assoc exif "Image DateTime" with
    | some s2 =>
      cases hp2 : parseExifDate s2 with
      | some d => simp [Option.orElse, *]
      | none => cases h3 : assoc exif "EXIF DateTimeDigitized" with
        | some s3 => cases hp3 : parseExifDate s3 <;> simp [Option.orElse, *]
        | none => simp [Option.orElse, *]
    | none =>
      cases h3 : assoc exif "EXIF DateTimeDigitized" with
      | some s3 => cases hp3 : parseExifDate s3 <;> simp [Option.orElse, *]
      | none => simp [Option.orElse, *]

/-! ## Claim C6 -/

/-- C6 counterexample: with an undeletable sidecar file followed by a
deletable one, the organize epilogue aborts with an error instead of
reporting statistics, even though the remaining file alone would have been
swept successfully. -/
theorem C6_counterexample :
    organizeReport (initState [])
        [⟨"._a", true, false⟩, ⟨"._b", true, true⟩] = .error "._a" ∧
    remove_resource_fork_files [⟨"._b", true, true⟩] = .ok 1 :=
  ⟨rfl, rfl⟩

/-- C6 amended: the sidecar sweep runs at the end of the organize pass and,
when it completes, the statistics are reported; but a failure to delete one
matching file aborts the sweep immediately — the remaining entries are not
visited (the result does not depend on them) and no statistics are
reported. -/
theorem C6_sweep_aborts :
    (∀ (e : SweepEntry) (rest : List SweepEntry) (removed : Nat),
      e.isFile = true → strStartsWith e.name "._" = true → e.deletable = false →
      removeRFFGo (e :: rest) removed = .error e.name) ∧
    (∀ (st : OrgState) (entries : List SweepEntry) (err : String),
      remove_resource_fork_files entries = .error err →
      organizeReport st entries = .error err) ∧
    (∀ (st : OrgState) (entries : List SweepEntry) (n : Nat),
      remove_resource_fork_files entries = .ok n →
      organizeReport st entries =
        .ok (st.processed, st.duplicates, st.alreadyExists, st.skipped, n)) := by
  refine ⟨?_, ?_, ?_⟩
  · intro e rest removed hf hn hd
    simp [removeRFFGo, hf, hn, hd]
  · intro st entries err h
    simp [organizeReport, h, Except.bind]
  · intro st entries n h
    simp [organizeReport, h, Except.bind]

/-- C6 witness: the amended behaviour at concrete inputs. -/
theorem C6_sweep_aborts_witness :
    removeRFFGo [⟨"._a", true, false⟩, ⟨"._b", true, true⟩] 0 = .error "._a" ∧
    organizeReport (initState []) [⟨"._a", true, false⟩] = .error "._a" ∧
    organizeReport (initState []) [⟨"._b", true, true⟩] = .ok (0, 0, 0, 0, 1) := by
  refine ⟨C6_sweep_aborts.1 ⟨"._a", true, false⟩ [⟨"._b", true, true⟩] 0 rfl rfl rfl,
    C6_sweep_aborts.2.1 (initState []) [⟨"._a", true, false⟩] "._a" rfl,
    C6_sweep_aborts.2.2 (initState []) [⟨"._b", true, true⟩] 1 rfl⟩

/-! ## Claim C5 -/

/-- C5: every occurrence of an already-seen fingerprint is copied into the
duplicates area and counted — never skipped — at a destination that did not
exist at decision time; no hypothesis constrains the contents already under
the duplicates area, so the name is settled by suffix collision resolution
alone, never by content comparison. -/
theorem C5_duplicate_always_copied :
    ∀ (cfg : OrgConfig) (st : OrgState) (f : SrcFile) (q : RelPath),
      is_image_file f.name = true →
      assoc st.tracker f.content = some q →
      processFile cfg st f =
        { st with
          fs := (["duplicates", f.parent] ++
              [resolveCollision st.fs ["duplicates", f.parent]
                (dupBase (resolveDate f.exif f.mtime cfg.now) f.name)],
            f.content) :: st.fs
          duplicates := st.duplicates + 1 } ∧
      fsLookup st.fs (["duplicates", f.parent] ++
          [resolveCollision st.fs ["duplicates", f.parent]
            (dupBase (resolveDate f.exif f.mtime cfg.now) f.name)]) = none := by
  intro cfg st f q himg htr
  exact ⟨processFile_dup himg htr,
    resolveCollision_fresh st.fs ["duplicates", f.parent]
      (dupBase (resolveDate f.exif f.mtime cfg.now) f.name)⟩

/-- C5 witness: a duplicate occurrence whose content (7) is byte-identical
to a file already placed in the duplicates area is still copied there,
under the suffixed name chosen by collision resolution. -/
theorem C5_duplicate_always_copied_witness :
    processFile ⟨none, false, ⟨2023, 5, 1, 0, 0, 0⟩⟩
        { fs := [(["duplicates", "s", "2023_05_b.jpg"], 7)]
          tracker := [(7, ["2023", "05", "a.jpg"])]
          processed := 1, duplicates := 1, skipped := 0, alreadyExists := 0 }
        ⟨"s", "b.jpg", 7, [], some ⟨2023, 5, 1, 0, 0, 0⟩⟩ =
      { fs := [(["duplicates", "s", "2023_05_b_1.jpg"], 7),
               (["duplicates", "s", "2023_05_b.jpg"], 7)]
        tracker := [(7, ["2023", "05", "a.jpg"])]
        processed := 1, duplicates := 2, skipped := 0, alreadyExists := 0 } ∧
    fsLookup [(["duplicates", "s", "2023_05_b.jpg"], 7)]
      ["duplicates", "s", "2023_05_b_1.jpg"] = none := by
  have h := C5_duplicate_always_copied ⟨none, false, ⟨2023, 5, 1, 0, 0, 0⟩⟩
    { fs := [(["duplicates", "s", "2023_05_b.jpg"], 7)]
      tracker := [(7, ["2023", "05", "a.jpg"])]
      processed := 1, duplicates := 1, skipped := 0, alreadyExists := 0 }
    ⟨"s", "b.jpg", 7, [], some ⟨2023, 5, 1, 0, 0, 0⟩⟩ ["2023", "05", "a.jpg"]
    (by decide) (by decide)
  refine ⟨?_, ?_⟩
  · rw [h.1]
    decide
  · have h2 := h.2
    revert h2
    decide

/-! ## Claim C3 -/

/-- C3 counterexample: destination already holds `t_a.jpg` (content 9); the
claim predicts that collision resolution inspects the prefixed name, finds
it taken, and copies the new file (content 5) to `t_a_1.jpg`, leaving
`t_a.jpg` intact.  The code instead resolves only the unprefixed name
`a.jpg` (free), then writes the prefixed name unchecked, overwriting
`t_a.jpg` and creating no suffixed file. -/
theorem C3_counterexample :
    fsLookup (initState [(["2023", "05", "t_a.jpg"], 9)]).fs
      ["2023", "05", "t_a.jpg"] = some 9 ∧
    fsLookup (organize_images ⟨some "t", false, ⟨2023, 5, 1, 0, 0, 0⟩⟩
        [⟨"s", "a.jpg", 5, [], some ⟨2023, 5, 1, 0, 0, 0⟩⟩]
        (initState [(["2023", "05", "t_a.jpg"], 9)])).fs
      ["2023", "05", "t_a.jpg"] = some 5 ∧
    fsLookup (organize_images ⟨some "t", false, ⟨2023, 5, 1, 0, 0, 0⟩⟩
        [⟨"s", "a.jpg", 5, [], some ⟨2023, 5, 1, 0, 0, 0⟩⟩]
        (initState [(["2023", "05", "t_a.jpg"], 9)])).fs
      ["2023", "05", "t_a_1.jpg"] = none := by
  refine ⟨rfl, ?_, ?_⟩ <;> decide

/-- C3 amended: with the tag active, suffix collision resolution is applied
to the unprefixed destination name only; the tag is prepended afterwards
and the prefixed name is written without an existence check; the prefixed
path is the one recorded in the tracker. -/
theorem C3_prefix_applied_after_resolution :
    ∀ (cfg : OrgConfig) (st : OrgState) (f : SrcFile) (t : String) (dn : String),
      getTag cfg.tag = some t →
      is_image_file f.name = true →
      assoc st.tracker f.content = none →
      ((fsLookup st.fs (destPath cfg f) = none ∧ dn = f.name) ∨
        (∃ c, fsLookup st.fs (destPath cfg f) = some c ∧ c ≠ f.content ∧
          dn = findSuffix st.fs (monthDir (resolveDate f.exif f.mtime cfg.now))
            (nameStem f.name) (nameSuffix f.name) (st.fs.length + 1) 1)) →
      processFile cfg st f =
        { st with
          fs := (monthDir (resolveDate f.exif f.mtime cfg.now) ++ [t ++ "_" ++ dn],
            f.content) :: st.fs
          processed := st.processed + 1
          tracker := (f.content,
            monthDir (resolveDate f.exif f.mtime cfg.now) ++ [t ++ "_" ++ dn])
            :: st.tracker } := by
  intro cfg st f t dn htag himg htr hcase
  rcases hcase with ⟨hfs, rfl⟩ | ⟨c, hfs, hne, rfl⟩
  · rw [processFile_new himg htr hfs, finishCopy_tag htag]
  · rw [processFile_clash himg htr hfs hne, finishCopy_tag htag]

/-- C3 witness: the amended behaviour at a concrete input (free unprefixed
name). -/
theorem C3_prefix_applied_after_resolution_witness :
    processFile ⟨some "t", false, ⟨2023, 5, 1, 0, 0, 0⟩⟩ (initState [])
        ⟨"s", "a.jpg", 5, [], some ⟨2023, 5, 1, 0, 0, 0⟩⟩ =
      { fs := [(["2023", "05", "t_a.jpg"], 5)]
        tracker := [(5, ["2023", "05", "t_a.jpg"])]
        processed := 1, duplicates := 0, skipped := 0, alreadyExists := 0 } := by
  have h := C3_prefix_applied_after_resolution ⟨some "t", false, ⟨2023, 5, 1, 0, 0, 0⟩⟩
    (initState []) ⟨"s", "a.jpg", 5, [], some ⟨2023, 5, 1, 0, 0, 0⟩⟩ "t" "a.jpg"
    (by decide) (by decide) (by decide) (Or.inl ⟨by decide, rfl⟩)
  rw [h]
  decide

/-! ## Claim C10 -/

/-- C10 counterexample: destination already holds `a.jpg` with content 7;
the source files `a.jpg`, `b.jpg`, `c.jpg` all have content 7.  `a.jpg` is
skipped as identical (already-present count 1) without recording the
fingerprint, `b.jpg` is then copied as new-unique — recording it — and
`c.jpg` is therefore treated as duplicate-of-seen (duplicate count 1),
contradicting the claim that every later byte-identical file is again
treated as new-unique. -/
theorem C10_counterexample :
    (organize_images ⟨none, false, ⟨2023, 5, 1, 0, 0, 0⟩⟩
        [⟨"s", "a.jpg", 7, [], some ⟨2023, 5, 1, 0, 0, 0⟩⟩,
         ⟨"s", "b.jpg", 7, [], some ⟨2023, 5, 1, 0, 0, 0⟩⟩,
         ⟨"s", "c.jpg", 7, [], some ⟨2023, 5, 1, 0, 0, 0⟩⟩]
        (initState [(["2023", "05", "a.jpg"], 7)])).alreadyExists = 1 ∧
    (organize_images ⟨none, false, ⟨2023, 5, 1, 0, 0, 0⟩⟩
        [⟨"s", "a.jpg", 7, [], some ⟨2023, 5, 1, 0, 0, 0⟩⟩,
         ⟨"s", "b.jpg", 7, [], some ⟨2023, 5, 1, 0, 0, 0⟩⟩,
         ⟨"s", "c.jpg", 7, [], some ⟨2023, 5, 1, 0, 0, 0⟩⟩]
        (initState [(["2023", "05", "a.jpg"], 7)])).duplicates = 1 ∧
    (organize_images ⟨none, false, ⟨2023, 5, 1, 0, 0, 0⟩⟩
        [⟨"s", "a.jpg", 7, [], some ⟨2023, 5, 1, 0, 0, 0⟩⟩,
         ⟨"s", "b.jpg", 7, [], some ⟨2023, 5, 1, 0, 0, 0⟩⟩,
         ⟨"s", "c.jpg", 7, [], some ⟨2023, 5, 1, 0, 0, 0⟩⟩]
        (initState [(["2023", "05", "a.jpg"], 7)])).processed = 1 := by
  refine ⟨?_, ?_, ?_⟩ <;> decide

/-- C10 amended: a skip-identical leaves the state unchanged except for the
already-present counter — in particular the fingerprint is not recorded —
and a later byte-identical image file is again treated as new-unique (not
counted as duplicate) as long as no intervening byte-identical file has
been copied; once the fingerprint is recorded, a byte-identical file is
counted as duplicate-of-seen. -/
theorem C10_skip_does_not_record :
    ∀ (cfg : OrgConfig) (st : OrgState) (f : SrcFile),
      is_image_file f.name = true →
      assoc st.tracker f.content = none →
      fsLookup st.fs (destPath cfg f) = some f.content →
      processFile cfg st f = { st with alreadyExists := st.alreadyExists + 1 } ∧
      (∀ g : SrcFile, g.content = f.content →
        (processFile cfg (processFile cfg st f) g).duplicates = st.duplicates) ∧
      (∀ (st2 : OrgState) (g : SrcFile) (q : RelPath),
        is_image_file g.name = true →
        assoc st2.tracker g.content = some q →
        (processFile cfg st2 g).duplicates = st2.duplicates + 1) := by
  intro cfg st f himg htr hfs
  have hskip := processFile_skip himg htr hfs
  refine ⟨hskip, ?_, ?_⟩
  · intro g hg
    rw [hskip]
    by_cases hgimg : is_image_file g.name = true
    · have htr2 : assoc ({ st with alreadyExists := st.alreadyExists + 1 } :
          OrgState).tracker g.content = none := by
        simpa [hg] using htr
      simpa using processFile_newbranch_duplicates htr2
    · rw [processFile_nonimage (by simpa using hgimg)]
  · intro st2 g q hgimg htr2
    rw [processFile_dup hgimg htr2]

/-- C10 witness: the amended behaviour at a concrete input. -/
theorem C10_skip_does_not_record_witness :
    processFile ⟨none, false, ⟨2023, 5, 1, 0, 0, 0⟩⟩
        (initState [(["2023", "05", "a.jpg"], 7)])
        ⟨"s", "a.jpg", 7, [], some ⟨2023, 5, 1, 0, 0, 0⟩⟩ =
      { fs := [(["2023", "05", "a.jpg"], 7)]
        tracker := [], processed := 0, duplicates := 0, skipped := 0
        alreadyExists := 1 } ∧
    (processFile ⟨none, false, ⟨2023, 5, 1, 0, 0, 0⟩⟩
        (processFile ⟨none, false, ⟨2023, 5, 1, 0, 0, 0⟩⟩
          (initState [(["2023", "05", "a.jpg"], 7)])
          ⟨"s", "a.jpg", 7, [], some ⟨2023, 5, 1, 0, 0, 0⟩⟩)
        ⟨"s", "b.jpg", 7, [], some ⟨2023, 5, 1, 0, 0, 0⟩⟩).duplicates = 0 := by
  have h := C10_skip_does_not_record ⟨none, false, ⟨2023, 5, 1, 0, 0, 0⟩⟩
    (initState [(["2023", "05", "a.jpg"], 7)])
    ⟨"s", "a.jpg", 7, [], some ⟨2023, 5, 1, 0, 0, 0⟩⟩
    (by decide) (by decide) (by decide)
  refine ⟨by rw [h.1]; decide, ?_⟩
  have h2 := h.2.1 ⟨"s", "b.jpg", 7, [], some ⟨2023, 5, 1, 0, 0, 0⟩⟩ rfl
  rw [h2]
  decide

/-! ## Claim C1 -/

/-- C1 counterexample: two mutations whose destination existed at decision
time and was overwritten.  (a) Organize with the tag option: the month folder
already holds `t_a.jpg` (content 9); copying `a.jpg` (content 5) writes the
prefixed name without any existence check and replaces the old content.
(b) Rename mode: the folder holds `t_x.jpg` (content 9) and `x.jpg`
(content 5); renaming `x.jpg` to `t_x.jpg` replaces the existing file. -/
theorem C1_counterexample :
    (fsLookup (initState [(["2023", "05", "t_a.jpg"], 9)]).fs
        ["2023", "05", "t_a.jpg"] = some 9 ∧
      fsLookup (organize_images ⟨some "t", false, ⟨2023, 5, 1, 0, 0, 0⟩⟩
          [⟨"s", "a.jpg", 5, [], some ⟨2023, 5, 1, 0, 0, 0⟩⟩]
          (initState [(["2023", "05", "t_a.jpg"], 9)])).fs
        ["2023", "05", "t_a.jpg"] = some 5) ∧
    (fsLookup [(["t_x.jpg"], 9), (["x.jpg"], 5)] ["t_x.jpg"] = some 9 ∧
      fsLookup (add_prefix_to_files "t" [(["t_x.jpg"], 9), (["x.jpg"], 5)]).1
        ["t_x.jpg"] = some 5 ∧
      (add_prefix_to_files "t" [(["t_x.jpg"], 9), (["x.jpg"], 5)]).2 = 1) := by
  refine ⟨⟨rfl, ?_⟩, rfl, ?_, rfl⟩ <;> decide

/-- C1 amended: in organize mode without the tag option every copy
(new-unique or duplicate) targets a path that did not exist at decision
time — the content visible at any pre-existing path is unchanged by a
processing step — and in duplicate-move mode the move destination did not
exist at decision time and every surviving file keeps its content.  With
the tag option active (and likewise in rename-with-prefix mode) the
prefixed destination is written without an existence check and an existing
file can be overwritten. -/
theorem C1_no_overwrite :
    (∀ (cfg : OrgConfig) (st : OrgState) (f : SrcFile) (p : RelPath),
      getTag cfg.tag = none →
      (fsLookup st.fs p).isSome = true →
      fsLookup (processFile cfg st f).fs p = fsLookup st.fs p) ∧
    (∀ (folderName : String) (fs : FS) (h : Nat) (p q : RelPath),
      fsLookup fs (moveDup folderName fs h p).2 = none ∧
      (q ≠ p → (fsLookup fs q).isSome = true →
        fsLookup (moveDup folderName fs h p).1 q = fsLookup fs q)) := by
  constructor
  · intro cfg st f p htag hp
    by_cases himg : is_image_file f.name = true
    · cases htr : assoc st.tracker f.content with
      | some q =>
        rw [processFile_dup himg htr]
        exact fsLookup_cons_fresh
          (resolveCollision_fresh st.fs ["duplicates", f.parent]
            (dupBase (resolveDate f.exif f.mtime cfg.now) f.name)) hp
      | none =>
        cases hfs : fsLookup st.fs (destPath cfg f) with
        | none =>
          rw [processFile_new himg htr hfs, finishCopy_notag htag]
          exact fsLookup_cons_fresh (by rw [destPath] at hfs; exact hfs) hp
        | some c =>
          by_cases hc : c = f.content
          · rw [hc] at hfs
            rw [processFile_skip himg htr hfs]
          · rw [processFile_clash himg htr hfs hc, finishCopy_notag htag]
            exact fsLookup_cons_fresh
              (findSuffix_fresh st.fs (monthDir (resolveDate f.exif f.mtime cfg.now))
                (nameStem f.name) (nameSuffix f.name)) hp
    · rw [processFile_nonimage (by simpa using himg)]
  · intro folderName fs h p q
    constructor
    · simp only [moveDup]
      exact resolveCollision_fresh fs ["duplicates", parentName folderName p]
        (lastName p)
    · intro hne hq
      have hfresh : fsLookup fs (["duplicates", parentName folderName p] ++
          [resolveCollision fs ["duplicates", parentName folderName p]
            (lastName p)]) = none :=
        resolveCollision_fresh fs ["duplicates", parentName folderName p] (lastName p)
      have hdq : (["duplicates", parentName folderName p] ++
          [resolveCollision fs ["duplicates", parentName folderName p]
            (lastName p)]) ≠ q := by
        intro hh
        rw [hh] at hfresh
        rw [hfresh] at hq
        simp at hq
      simp only [moveDup]
      rw [fsLookup_cons, if_neg hdq]
      exact fsLookup_remove_ne hne

/-- C1 witness: the amended no-overwrite facts at concrete inputs. -/
theorem C1_no_overwrite_witness :
    fsLookup (processFile ⟨none, false, ⟨2023, 5, 1, 0, 0, 0⟩⟩
        (initState [(["2023", "05", "x.jpg"], 3)])
        ⟨"s", "x.jpg", 4, [], some ⟨2023, 5, 1, 0, 0, 0⟩⟩).fs
      ["2023", "05", "x.jpg"] =
      fsLookup (initState [(["2023", "05", "x.jpg"], 3)]).fs ["2023", "05", "x.jpg"] ∧
    fsLookup [(["a.jpg"], 1), (["b.jpg"], 1)]
      (moveDup "f" [(["a.jpg"], 1), (["b.jpg"], 1)] 1 ["b.jpg"]).2 = none ∧
    fsLookup (moveDup "f" [(["a.jpg"], 1), (["b.jpg"], 1)] 1 ["b.jpg"]).1
      ["a.jpg"] = fsLookup [(["a.jpg"], 1), (["b.jpg"], 1)] ["a.jpg"] := by
  refine ⟨C1_no_overwrite.1 ⟨none, false, ⟨2023, 5, 1, 0, 0, 0⟩⟩
      (initState [(["2023", "05", "x.jpg"], 3)])
      ⟨"s", "x.jpg", 4, [], some ⟨2023, 5, 1, 0, 0, 0⟩⟩
      ["2023", "05", "x.jpg"] rfl (by decide),
    (C1_no_overwrite.2 "f" [(["a.jpg"], 1), (["b.jpg"], 1)] 1 ["b.jpg"] ["a.jpg"]).1,
    (C1_no_overwrite.2 "f" [(["a.jpg"], 1), (["b.jpg"], 1)] 1 ["b.jpg"] ["a.jpg"]).2
      (by decide) (by decide)⟩

/-! ## Claim C2 -/

lemma processFile_new_notag {cfg : OrgConfig} {st : OrgState} {f : SrcFile}
    (htag : getTag cfg.tag = none)
    (himg : is_image_file f.name = true)
    (htr : assoc st.tracker f.content = none)
    (hfs : fsLookup st.fs (destPath cfg f) = none) :
    processFile cfg st f =
      { st with
        fs := (destPath cfg f, f.content) :: st.fs
        processed := st.processed + 1
        tracker := (f.content, destPath cfg f) :: st.tracker } := by
  rw [processFile_new himg htr hfs, finishCopy_notag htag]
  rfl

/-- A run over image files with pairwise fresh contents and destination
paths copies every file at its unsuffixed destination path. -/
lemma organize_fresh_run (cfg : OrgConfig) :
    ∀ (l : List SrcFile) (st : OrgState),
      getTag cfg.tag = none →
      (∀ f ∈ l, is_image_file f.name = true) →
      (l.map SrcFile.content).Nodup →
      (∀ f ∈ l, assoc st.tracker f.content = none) →
      (l.map (destPath cfg)).Nodup →
      (∀ f ∈ l, fsLookup st.fs (destPath cfg f) = none) →
      organize_images cfg l st =
        { st with
          fs := (l.map (fun f => (destPath cfg f, f.content))).reverse ++ st.fs
          tracker :=
            (l.map (fun f => (f.content, destPath cfg f))).reverse ++ st.tracker
          processed := st.processed + l.length } := by
  intro l
  induction l with
  | nil =>
    intro st _ _ _ _ _ _
    simp [organize_images]
  | cons f rest ih =>
    intro st htag himg hnodc htr hnodp hfs
    have hstep := processFile_new_notag htag (himg f (List.mem_cons_self f rest))
      (htr f (List.mem_cons_self f rest)) (hfs f (List.mem_cons_self f rest))
    have hcne : ∀ g ∈ rest, f.content ≠ g.content := by
      intro g hg hc
      rw [List.map_cons, List.nodup_cons] at hnodc
      exact hnodc.1 (hc ▸ List.mem_map.mpr ⟨g, hg, rfl⟩)
    have hpne : ∀ g ∈ rest, destPath cfg f ≠ destPath cfg g := by
      intro g hg hp
      rw [List.map_cons, List.nodup_cons] at hnodp
      exact hnodp.1 (hp ▸ List.mem_map.mpr ⟨g, hg, rfl⟩)
    rw [organize_images, List.foldl_cons, hstep]
    have hrec := ih { st with
        fs := (destPath cfg f, f.content) :: st.fs
        processed := st.processed + 1
        tracker := (f.content, destPath cfg f) :: st.tracker }
      htag
      (fun g hg => himg g (List.mem_cons_of_mem f hg))
      (by rw [List.map_cons, List.nodup_cons] at hnodc; exact hnodc.2)
      (by
        intro g hg
        simp only [assoc]
        rw [if_neg (hcne g hg)]
        exact htr g (List.mem_cons_of_mem f hg))
      (by rw [List.map_cons, List.nodup_cons] at hnodp; exact hnodp.2)
      (by
        intro g hg
        rw [fsLookup_cons, if_neg (hpne g hg)]
        exact hfs g (List.mem_cons_of_mem f hg))
    rw [show (List.foldl (processFile cfg) _ rest = organize_images cfg rest _) from rfl,
      hrec]
    simp only [OrgState.mk.injEq, List.map_cons, List.reverse_cons, List.append_assoc,
      List.singleton_append, List.length_cons, and_true, true_and]
    omega

/-- A run in which every file already sits at its destination with identical
content only counts already-present files. -/
lemma organize_rerun_skips (cfg : OrgConfig) :
    ∀ (l : List SrcFile) (st : OrgState),
      (∀ f ∈ l, is_image_file f.name = true) →
      (∀ f ∈ l, assoc st.tracker f.content = none) →
      (∀ f ∈ l, fsLookup st.fs (destPath cfg f) = some f.content) →
      organize_images cfg l st =
        { st with alreadyExists := st.alreadyExists + l.length } := by
  intro l
  induction l with
  | nil =>
    intro st _ _ _
    simp [organize_images]
  | cons f rest ih =>
    intro st himg htr hfs
    have hstep := processFile_skip (himg f (List.mem_cons_self f rest))
      (htr f (List.mem_cons_self f rest)) (hfs f (List.mem_cons_self f rest))
    rw [organize_images, List.foldl_cons, hstep]
    have hrec := ih { st with alreadyExists := st.alreadyExists + 1 }
      (fun g hg => himg g (List.mem_cons_of_mem f hg))
      (fun g hg => htr g (List.mem_cons_of_mem f hg))
      (fun g hg => hfs g (List.mem_cons_of_mem f hg))
    rw [show (List.foldl (processFile cfg) _ rest = organize_images cfg rest _) from rfl,
      hrec]
    simp only [OrgState.mk.injEq, List.length_cons, and_true, true_and]
    omega

/-- C2 counterexample: (a) two source files named `x.jpg` with different
contents and the same month.  The first run copies both (`x.jpg`, `x_1.jpg`,
processed = 2); on the exact re-run the second file again fails the
same-name check, the suffix loop sees `x_1.jpg` taken and copies a fresh
`x_2.jpg` — a second copy of a unique file — and the already-present count
is 1, not 2.  (b) With a tag, even a single unchanged file is re-copied on
the second run (processed = 1, already-present = 0). -/
theorem C2_counterexample :
    ((organize_images ⟨none, false, ⟨2023, 5, 1, 0, 0, 0⟩⟩
        [⟨"a", "x.jpg", 1, [], some ⟨2023, 5, 1, 0, 0, 0⟩⟩,
         ⟨"b", "x.jpg", 2, [], some ⟨2023, 5, 1, 0, 0, 0⟩⟩]
        (initState [])).processed = 2 ∧
      (organize_images ⟨none, false, ⟨2023, 5, 1, 0, 0, 0⟩⟩
        [⟨"a", "x.jpg", 1, [], some ⟨2023, 5, 1, 0, 0, 0⟩⟩,
         ⟨"b", "x.jpg", 2, [], some ⟨2023, 5, 1, 0, 0, 0⟩⟩]
        (initState (organize_images ⟨none, false, ⟨2023, 5, 1, 0, 0, 0⟩⟩
          [⟨"a", "x.jpg", 1, [], some ⟨2023, 5, 1, 0, 0, 0⟩⟩,
           ⟨"b", "x.jpg", 2, [], some ⟨2023, 5, 1, 0, 0, 0⟩⟩]
          (initState [])).fs)).processed = 1 ∧
      (organize_images ⟨none, false, ⟨2023, 5, 1, 0, 0, 0⟩⟩
        [⟨"a", "x.jpg", 1, [], some ⟨2023, 5, 1, 0, 0, 0⟩⟩,
         ⟨"b", "x.jpg", 2, [], some ⟨2023, 5, 1, 0, 0, 0⟩⟩]
        (initState (organize_images ⟨none, false, ⟨2023, 5, 1, 0, 0, 0⟩⟩
          [⟨"a", "x.jpg", 1, [], some ⟨2023, 5, 1, 0, 0, 0⟩⟩,
           ⟨"b", "x.jpg", 2, [], some ⟨2023, 5, 1, 0, 0, 0⟩⟩]
          (initState [])).fs)).alreadyExists = 1) ∧
    ((organize_images ⟨some "t", false, ⟨2023, 5, 1, 0, 0, 0⟩⟩
        [⟨"s", "a.jpg", 5, [], some ⟨2023, 5, 1, 0, 0, 0⟩⟩]
        (initState (organize_images ⟨some "t", false, ⟨2023, 5, 1, 0, 0, 0⟩⟩
          [⟨"s", "a.jpg", 5, [], some ⟨2023, 5, 1, 0, 0, 0⟩⟩]
          (initState [])).fs)).processed = 1 ∧
      (organize_images ⟨some "t", false, ⟨2023, 5, 1, 0, 0, 0⟩⟩
        [⟨"s", "a.jpg", 5, [], some ⟨2023, 5, 1, 0, 0, 0⟩⟩]
        (initState (organize_images ⟨some "t", false, ⟨2023, 5, 1, 0, 0, 0⟩⟩
          [⟨"s", "a.jpg", 5, [], some ⟨2023, 5, 1, 0, 0, 0⟩⟩]
          (initState [])).fs)).alreadyExists = 0) := by
  refine ⟨⟨?_, ?_, ?_⟩, ?_, ?_⟩ <;> decide

/-- C2 amended: the exact re-run is idempotent when the tag option is off,
all source files are images with pairwise distinct contents and pairwise
distinct month-folder destination paths, and none of those paths is taken
in the initial destination: then the first run copies every file, the second
run copies nothing, its already-present count equals the number of unique
files copied by the first run, and the destination is unchanged. -/
theorem C2_rerun_idempotent :
    ∀ (cfg : OrgConfig) (l : List SrcFile) (fs0 : FS),
      getTag cfg.tag = none →
      (∀ f ∈ l, is_image_file f.name = true) →
      (l.map SrcFile.content).Nodup →
      (l.map (destPath cfg)).Nodup →
      (∀ f ∈ l, fsLookup fs0 (destPath cfg f) = none) →
      (organize_images cfg l (initState fs0)).processed = l.length ∧
      (organize_images cfg l
        (initState (organize_images cfg l (initState fs0)).fs)).processed = 0 ∧
      (organize_images cfg l
          (initState (organize_images cfg l (initState fs0)).fs)).alreadyExists =
        (organize_images cfg l (initState fs0)).processed ∧
      (organize_images cfg l
          (initState (organize_images cfg l (initState fs0)).fs)).fs =
        (organize_images cfg l (initState fs0)).fs ∧
      (organize_images cfg l
        (initState (organize_images cfg l (initState fs0)).fs)).duplicates = 0 := by
  intro cfg l fs0 htag himg hnodc hnodp hfs0
  have hrun1 := organize_fresh_run cfg l (initState fs0) htag himg hnodc
    (by intro f _; rfl) hnodp hfs0
  have hlk : ∀ f ∈ l,
      fsLookup (organize_images cfg l (initState fs0)).fs (destPath cfg f) =
        some f.content := by
    intro f hf
    rw [hrun1]
    have hmem : (destPath cfg f, f.content) ∈
        (l.map (fun g => (destPath cfg g, g.content))).reverse :=
      List.mem_reverse.mpr (List.mem_map.mpr ⟨f, hf, rfl⟩)
    have hnd : ((l.map (fun g => (destPath cfg g, g.content))).reverse.map
        Prod.fst).Nodup := by
      rw [List.map_reverse, List.nodup_reverse, List.map_map]
      exact hnodp
    exact assoc_append_left (assoc_of_mem_nodup hmem hnd) _
  have hrun2 := organize_rerun_skips cfg l
    (initState (organize_images cfg l (initState fs0)).fs) himg
    (by intro f _; rfl) hlk
  rw [hrun2, hrun1]
  simp [initState]

/-- C2 witness: the amended idempotence at a concrete two-file source. -/
theorem C2_rerun_idempotent_witness :
    (organize_images ⟨none, false, ⟨2023, 5, 1, 0, 0, 0⟩⟩
      [⟨"a", "x.jpg", 1, [], some ⟨2023, 5, 1, 0, 0, 0⟩⟩,
       ⟨"a", "y.jpg", 2, [], some ⟨2023, 5, 1, 0, 0, 0⟩⟩]
      (initState [])).processed = 2 ∧
    (organize_images ⟨none, false, ⟨2023, 5, 1, 0, 0, 0⟩⟩
      [⟨"a", "x.jpg", 1, [], some ⟨2023, 5, 1, 0, 0, 0⟩⟩,
       ⟨"a", "y.jpg", 2, [], some ⟨2023, 5, 1, 0, 0, 0⟩⟩]
      (initState (organize_images ⟨none, false, ⟨2023, 5, 1, 0, 0, 0⟩⟩
        [⟨"a", "x.jpg", 1, [], some ⟨2023, 5, 1, 0, 0, 0⟩⟩,
         ⟨"a", "y.jpg", 2, [], some ⟨2023, 5, 1, 0, 0, 0⟩⟩]
        (initState [])).fs)).processed = 0 ∧
    (organize_images ⟨none, false, ⟨2023, 5, 1, 0, 0, 0⟩⟩
      [⟨"a", "x.jpg", 1, [], some ⟨2023, 5, 1, 0, 0, 0⟩⟩,
       ⟨"a", "y.jpg", 2, [], some ⟨2023, 5, 1, 0, 0, 0⟩⟩]
      (initState (organize_images ⟨none, false, ⟨2023, 5, 1, 0, 0, 0⟩⟩
        [⟨"a", "x.jpg", 1, [], some ⟨2023, 5, 1, 0, 0, 0⟩⟩,
         ⟨"a", "y.jpg", 2, [], some ⟨2023, 5, 1, 0, 0, 0⟩⟩]
        (initState [])).fs)).alreadyExists =
      (organize_images ⟨none, false, ⟨2023, 5, 1, 0, 0, 0⟩⟩
        [⟨"a", "x.jpg", 1, [], some ⟨2023, 5, 1, 0, 0, 0⟩⟩,
         ⟨"a", "y.jpg", 2, [], some ⟨2023, 5, 1, 0, 0, 0⟩⟩]
        (initState [])).processed := by
  have h := C2_rerun_idempotent ⟨none, false, ⟨2023, 5, 1, 0, 0, 0⟩⟩
    [⟨"a", "x.jpg", 1, [], some ⟨2023, 5, 1, 0, 0, 0⟩⟩,
     ⟨"a", "y.jpg", 2, [], some ⟨2023, 5, 1, 0, 0, 0⟩⟩]
    [] rfl (by decide) (by decide) (by decide) (by decide)
  exact ⟨h.1, h.2.1, h.2.2.1⟩

/-! ## Claim C8 -/

lemma lookup_ne {fs : FS} {d q : RelPath} {v : Nat}
    (hd : fsLookup fs d = none) (hq : fsLookup fs q = some v) : d ≠ q := by
  intro h
  rw [h, hq] at hd
  exact Option.noConfusion hd

lemma ne_of_area {d q : RelPath} (hd : inDuplicatesArea d = true)
    (hq : inDuplicatesArea q = false) : d ≠ q := by
  intro h
  rw [h, hq] at hd
  exact Bool.noConfusion hd

lemma countP_dupArea_remove (l : FS) (q : RelPath) (h : inDuplicatesArea q = false) :
    (fsRemove l q).countP (fun e => inDuplicatesArea e.1) =
      l.countP (fun e => inDuplicatesArea e.1) := by
  rw [fsRemove, List.countP_filter]
  apply List.countP_congr
  intro a _
  constructor
  · intro hh
    simp only [Bool.and_eq_true] at hh
    exact hh.1
  · intro hh
    simp only [Bool.and_eq_true]
    refine ⟨hh, decide_eq_true ?_⟩
    intro heq
    rw [heq, h] at hh
    exact Bool.noConfusion hh

lemma fdStep_skip : ∀ (b : FdAcc) (a : RelPath × Nat),
    orgPred a = false → fdStep b a = b := by
  intro b a ha
  by_cases hdup : inDuplicatesArea a.1 = true
  · simp [fdStep, hdup]
  · simp only [Bool.not_eq_true] at hdup
    rw [orgPred, hdup] at ha
    simp only [Bool.not_false, Bool.true_and] at ha
    simp [fdStep, hdup, ha]

/-- C8: in duplicate-check mode, a folder whose organizable entries are
exactly three byte-identical image files reports 2 duplicates (whether or
not moving is enabled); with moving enabled, exactly 2 files are moved, the
duplicates area gains exactly two entries, the first occurrence stays in
place and the other two occurrences are gone from their original paths. -/
theorem C8_three_identical :
    ∀ (folderName : String) (fs : FS) (p1 p2 p3 : RelPath) (c : Nat),
      (fs.map Prod.fst).Nodup →
      fs.filter orgPred = [(p1, c), (p2, c), (p3, c)] →
      (find_duplicates folderName fs false).1 = 2 ∧
      (find_duplicates folderName fs false).2.1 = 0 ∧
      (find_duplicates folderName fs true).1 = 2 ∧
      (find_duplicates folderName fs true).2.1 = 2 ∧
      fsLookup (find_duplicates folderName fs true).2.2 p1 = some c ∧
      fsLookup (find_duplicates folderName fs true).2.2 p2 = none ∧
      fsLookup (find_duplicates folderName fs true).2.2 p3 = none ∧
      (find_duplicates folderName fs true).2.2.countP (fun e => inDuplicatesArea e.1) =
        fs.countP (fun e => inDuplicatesArea e.1) + 2 := by
  intro fn fs p1 p2 p3 c hnd hfil
  have hm1 : (p1, c) ∈ fs.filter orgPred := by rw [hfil]; simp
  have hm2 : (p2, c) ∈ fs.filter orgPred := by rw [hfil]; simp
  have hm3 : (p3, c) ∈ fs.filter orgPred := by rw [hfil]; simp
  have hq1 := List.of_mem_filter hm1
  have hq2 := List.of_mem_filter hm2
  have hq3 := List.of_mem_filter hm3
  simp only [orgPred, Bool.and_eq_true, Bool.not_eq_true'] at hq1 hq2 hq3
  have hin1 : (p1, c) ∈ fs := List.mem_of_mem_filter hm1
  have hin2 : (p2, c) ∈ fs := List.mem_of_mem_filter hm2
  have hin3 : (p3, c) ∈ fs := List.mem_of_mem_filter hm3
  have hl1 : fsLookup fs p1 = some c := assoc_of_mem_nodup hin1 hnd
  have hl2 : fsLookup fs p2 = some c := assoc_of_mem_nodup hin2 hnd
  have hl3 : fsLookup fs p3 = some c := assoc_of_mem_nodup hin3 hnd
  have hnd3 : ((fs.filter orgPred).map Prod.fst).Nodup :=
    hnd.sublist ((List.filter_sublist fs).map Prod.fst)
  rw [hfil] at hnd3
  simp only [List.map_cons, List.map_nil, List.nodup_cons, List.mem_cons,
    List.mem_singleton, List.not_mem_nil, not_or] at hnd3
  have hne12 : p1 ≠ p2 := hnd3.1.1
  have hne13 : p1 ≠ p3 := hnd3.1.2.1
  have hne23 : p2 ≠ p3 := hnd3.2.1.1
  have hpass1 : fs.foldl fdStep ⟨[], [], 0⟩ =
      ⟨[(c, p1)], [(c, [p1, p2, p3])], 2⟩ := by
    rw [foldl_filter_eq fdStep orgPred fs fdStep_skip, hfil]
    simp [fdStep, assoc, dupsAppend, hq1.1, hq1.2, hq2.1, hq2.2, hq3.1, hq3.2]
  have hfalse : find_duplicates fn fs false = (2, 0, fs) := by
    simp only [find_duplicates, hpass1]
    simp [fdMoveSet]
  have htrue : find_duplicates fn fs true =
      (2, 2, (moveDup fn (moveDup fn fs c p2).1 c p3).1) := by
    simp only [find_duplicates, hpass1]
    simp [fdMoveSet]
  -- facts about the two moves
  have hf2 : fsLookup fs (moveDup fn fs c p2).2 = none :=
    resolveCollision_fresh fs ["duplicates", parentName fn p2] (lastName p2)
  have ha2 : inDuplicatesArea (moveDup fn fs c p2).2 = true := rfl
  have hl1fs1 : fsLookup (moveDup fn fs c p2).1 p1 = some c := by
    rw [show (moveDup fn fs c p2).1 =
        ((moveDup fn fs c p2).2, c) :: fsRemove fs p2 from rfl]
    rw [fsLookup_cons, if_neg (lookup_ne hf2 hl1), fsLookup_remove_ne hne12]
    exact hl1
  have hl3fs1 : fsLookup (moveDup fn fs c p2).1 p3 = some c := by
    rw [show (moveDup fn fs c p2).1 =
        ((moveDup fn fs c p2).2, c) :: fsRemove fs p2 from rfl]
    rw [fsLookup_cons, if_neg (lookup_ne hf2 hl3),
      fsLookup_remove_ne (fun h => hne23 h.symm)]
    exact hl3
  have hl2fs1 : fsLookup (moveDup fn fs c p2).1 p2 = none := by
    rw [show (moveDup fn fs c p2).1 =
        ((moveDup fn fs c p2).2, c) :: fsRemove fs p2 from rfl]
    rw [fsLookup_cons, if_neg (lookup_ne hf2 hl2), fsLookup_remove_self]
  have hf3 : fsLookup (moveDup fn fs c p2).1
      (moveDup fn (moveDup fn fs c p2).1 c p3).2 = none :=
    resolveCollision_fresh (moveDup fn fs c p2).1
      ["duplicates", parentName fn p3] (lastName p3)
  have ha3 : inDuplicatesArea (moveDup fn (moveDup fn fs c p2).1 c p3).2 = true := rfl
  rw [hfalse, htrue]
  refine ⟨rfl, rfl, rfl, rfl, ?_, ?_, ?_, ?_⟩
  · rw [show (moveDup fn (moveDup fn fs c p2).1 c p3).1 =
        ((moveDup fn (moveDup fn fs c p2).1 c p3).2, c) ::
          fsRemove (moveDup fn fs c p2).1 p3 from rfl]
    rw [fsLookup_cons, if_neg (lookup_ne hf3 hl1fs1), fsLookup_remove_ne hne13]
    exact hl1fs1
  · rw [show (moveDup fn (moveDup fn fs c p2).1 c p3).1 =
        ((moveDup fn (moveDup fn fs c p2).1 c p3).2, c) ::
          fsRemove (moveDup fn fs c p2).1 p3 from rfl]
    rw [fsLookup_cons, if_neg (ne_of_area ha3 hq2.1),
      fsLookup_remove_ne (fun h => hne23 h), hl2fs1]
  · rw [show (moveDup fn (moveDup fn fs c p2).1 c p3).1 =
        ((moveDup fn (moveDup fn fs c p2).1 c p3).2, c) ::
          fsRemove (moveDup fn fs c p2).1 p3 from rfl]
    rw [fsLookup_cons, if_neg (lookup_ne hf3 hl3fs1), fsLookup_remove_self]
  · rw [show (moveDup fn (moveDup fn fs c p2).1 c p3).1 =
        ((moveDup fn (moveDup fn fs c p2).1 c p3).2, c) ::
          fsRemove (moveDup fn fs c p2).1 p3 from rfl]
    rw [List.countP_cons]
    simp only [ha3, if_true]
    rw [countP_dupArea_remove _ _ hq3.1]
    rw [show (moveDup fn fs c p2).1 =
        ((moveDup fn fs c p2).2, c) :: fsRemove fs p2 from rfl]
    rw [List.countP_cons]
    simp only [ha2, if_true]
    rw [countP_dupArea_remove _ _ hq2.1]

/-- C8 witness: the scenario at a concrete three-file folder. -/
theorem C8_three_identical_witness :
    (find_duplicates "f" [(["a.jpg"], 3), (["b.jpg"], 3), (["c.jpg"], 3)] false).1 = 2 ∧
    (find_duplicates "f" [(["a.jpg"], 3), (["b.jpg"], 3), (["c.jpg"], 3)] false).2.1 = 0 ∧
    (find_duplicates "f" [(["a.jpg"], 3), (["b.jpg"], 3), (["c.jpg"], 3)] true).1 = 2 ∧
    (find_duplicates "f" [(["a.jpg"], 3), (["b.jpg"], 3), (["c.jpg"], 3)] true).2.1 = 2 ∧
    fsLookup (find_duplicates "f"
      [(["a.jpg"], 3), (["b.jpg"], 3), (["c.jpg"], 3)] true).2.2 ["a.jpg"] = some 3 ∧
    fsLookup (find_duplicates "f"
      [(["a.jpg"], 3), (["b.jpg"], 3), (["c.jpg"], 3)] true).2.2 ["b.jpg"] = none ∧
    fsLookup (find_duplicates "f"
      [(["a.jpg"], 3), (["b.jpg"], 3), (["c.jpg"], 3)] true).2.2 ["c.jpg"] = none ∧
    (find_duplicates "f" [(["a.jpg"], 3), (["b.jpg"], 3), (["c.jpg"], 3)]
        true).2.2.countP (fun e => inDuplicatesArea e.1) =
      ([(["a.jpg"], 3), (["b.jpg"], 3), (["c.jpg"], 3)] : FS).countP
        (fun e => inDuplicatesArea e.1) + 2 :=
  C8_three_identical "f" [(["a.jpg"], 3), (["b.jpg"], 3), (["c.jpg"], 3)]
    ["a.jpg"] ["b.jpg"] ["c.jpg"] 3 (by decide) (by decide)

end ImageOrganizer
